import Mathlib

/-!
Shallow embedding of the `dropout` crate (src/src/lib.rs).

The crate exposes `Dropper<T>(Arc<inner::Dropper<T>>)`:

* `inner::Dropper::new` creates an unbounded crossbeam channel
  `(drop_sender, drop_receiver)` and spawns one worker thread running
  `while let Ok(_) = drop_receiver.recv() {}`; each received value is
  destroyed immediately when the binder goes out of scope.  The sender and
  the join handle are stored as `Some`-wrapped fields.
* `Dropper::dropout(v)` forwards to `inner::Dropper::dropout`, which does
  `let _ = self.drop_sender.as_ref().unwrap().send(to_drop)`: if the send
  fails because the receiving side is gone, the `SendError(v)` carrying the
  value is dropped right there, destroying the value synchronously.
* `impl Drop for inner::Dropper` runs when the last `Arc` owner is
  released: it first drops the sender (`drop(self.drop_sender.take())`),
  then joins the worker (`self.thread_handle.take().map(|h| h.join())`),
  discarding the join result.

We model one `Dropper` lineage as a labelled transition system.  A state
records the `Arc` strong count, whether the single sender endpoint still
exists, whether the worker thread is running, whether the final join has
completed, and FIFO logs of where each value went.  Values are tagged
`(producer id, value tag)` so per-producer ordering is expressible.

Destruction sites, exactly as in the Rust code:
* `destW`    — destroyed by the worker thread (a faulting destructor is
               recorded here too: the destructor did run);
* `destSync` — destroyed synchronously in the calling thread when `send`
               failed (the `let _ =` fallback in `dropout`);
* `destClose`— destroyed when the channel itself is torn down with items
               still buffered: crossbeam frees buffered messages when the
               last endpoint (sender or receiver) is dropped.
-/

namespace Dropout

/-- A queued value, tagged with (producer id, value tag). -/
abbrev Item := Nat × Nat

/-- The observable state of one `Dropper` lineage. -/
structure State where
  /-- strong count of the `Arc<inner::Dropper>` (number of live handles) -/
  handles : Nat
  /-- `drop_sender` field is `Some` (the sender endpoint still exists) -/
  senderOpen : Bool
  /-- the worker thread is still running (hence the receiver endpoint lives) -/
  workerAlive : Bool
  /-- the `join()` in `inner::Dropper::drop` has completed -/
  joined : Bool
  /-- the worker terminated by a panic in some value's destructor -/
  panicked : Bool
  /-- number of worker threads spawned for this lineage -/
  spawned : Nat
  /-- contents of the unbounded channel, front = next to be received -/
  queue : List Item
  /-- values destroyed by the worker, in destruction order -/
  destW : List Item
  /-- values destroyed synchronously via the send-failure fallback -/
  destSync : List Item
  /-- values destroyed by channel teardown while still buffered -/
  destClose : List Item
  /-- log of every `dropout` call, in call order -/
  sent : List Item
  /-- log of every value successfully moved into the channel, in send order -/
  enqueued : List Item
deriving DecidableEq, Repr

/-- State right after `inner::Dropper::new` succeeded: one handle, the
sender stored as `Some`, one freshly spawned worker, empty channel. -/
def initState : State :=
  { handles := 1
    senderOpen := true
    workerAlive := true
    joined := false
    panicked := false
    spawned := 1
    queue := []
    destW := []
    destSync := []
    destClose := []
    sent := []
    enqueued := [] }

/-- Model of `inner::Dropper::new`: `thread::Builder::spawn` returns a
`Result`; the code calls `.expect("Should succeed to create thread")`,
so a spawn failure aborts construction (panic) and no handle is returned. -/
def new (spawnOk : Bool) : Option State :=
  if spawnOk then some initState else none

/-- Model of `Sender::send` on the unbounded channel: succeeds (appends to
the FIFO buffer) iff the receiver endpoint still exists, i.e. the worker
thread is still running; otherwise returns the value inside a send error. -/
def sendOnChannel (s : State) (x : Item) : State × Bool :=
  if s.workerAlive then ({ s with queue := s.queue ++ [x] }, true) else (s, false)

/-- Model of `inner::Dropper::dropout`:
`let _ = self.drop_sender.as_ref().unwrap().send(to_drop)`.
Returns `none` exactly when the `unwrap` would panic (`drop_sender` is
`None`).  Otherwise the send is attempted; on failure the `SendError`
holding the value is discarded by `let _ =`, destroying the value
synchronously in the calling thread.  The Rust function returns `()` in
both cases, so a `some` result carries no error information. -/
def innerDropout (s : State) (x : Item) : Option State :=
  match s.senderOpen with
  | false => none
  | true =>
    match sendOnChannel s x with
    | (s1, true) =>
      some { s1 with sent := s1.sent ++ [x], enqueued := s1.enqueued ++ [x] }
    | (s1, false) =>
      some { s1 with sent := s1.sent ++ [x], destSync := s1.destSync ++ [x] }

/-- The events a lineage can undergo.  Producer-side events require a live
handle; worker-side events reflect one iteration of
`while let Ok(_) = drop_receiver.recv() {}`. -/
inductive Event where
  /-- producer `pid` calls `Dropper::dropout` with value tag `v` -/
  | dropout (pid v : Nat)
  /-- `Dropper::clone`: `Arc::clone` of the shared inner state -/
  | clone
  /-- one outer handle is dropped; the last one runs `inner::Dropper::drop`,
      whose first statement drops the sender endpoint -/
  | release
  /-- worker: `recv()` returns `Ok(v)`, the value is destroyed in scope exit -/
  | workerRecv
  /-- worker: `recv()` returns `Ok(v)` and destroying `v` panics, unwinding
      the worker thread (the receiver endpoint is dropped in the unwind) -/
  | workerPanic
  /-- worker: `recv()` returns `Err` (all senders gone, buffer empty) and
      the loop — hence the thread — terminates -/
  | workerTerm
  /-- the `join()` inside `inner::Dropper::drop` returns -/
  | joinDone
deriving DecidableEq, Repr

/-- One small step of the lineage.  `none` means the event is not enabled
in this state (e.g. `recv` blocks, or no live handle exists to call the
method on). -/
def step (s : State) (e : Event) : Option State :=
  match e with
  | .dropout pid v =>
    if s.handles = 0 then none else innerDropout s (pid, v)
  | .clone =>
    if s.handles = 0 then none else some { s with handles := s.handles + 1 }
  | .release =>
    match s.handles with
    | 0 => none
    | 1 =>
      -- last owner: `inner::Dropper::drop` starts; `drop(self.drop_sender.take())`
      -- closes the sender.  If the receiver is already gone (worker dead),
      -- this was the last channel endpoint and crossbeam destroys every
      -- still-buffered message here, in the releasing thread.
      if s.workerAlive then
        some { s with handles := 0, senderOpen := false }
      else
        some { s with
          handles := 0
          senderOpen := false
          queue := []
          destClose := s.destClose ++ s.queue }
    | _ + 2 => some { s with handles := s.handles - 1 }
  | .workerRecv =>
    if s.workerAlive then
      match s.queue with
      | [] => none
      | x :: rest => some { s with queue := rest, destW := s.destW ++ [x] }
    else none
  | .workerPanic =>
    if s.workerAlive then
      match s.queue with
      | [] => none
      | x :: rest =>
        -- the faulting destructor did run on `x`; the unwind drops the
        -- receiver.  If the sender is already gone, that makes the receiver
        -- the last endpoint and the buffered rest is destroyed in teardown.
        if s.senderOpen then
          some { s with
            workerAlive := false
            panicked := true
            queue := rest
            destW := s.destW ++ [x] }
        else
          some { s with
            workerAlive := false
            panicked := true
            queue := []
            destW := s.destW ++ [x]
            destClose := s.destClose ++ rest }
    else none
  | .workerTerm =>
    if s.workerAlive = true ∧ s.senderOpen = false ∧ s.queue = [] then
      some { s with workerAlive := false }
    else none
  | .joinDone =>
    -- `join()` returns once the worker thread has terminated, however it
    -- terminated; the `Result` it yields is discarded by the code.
    if s.handles = 0 ∧ s.senderOpen = false ∧ s.workerAlive = false
       ∧ s.joined = false then
      some { s with joined := true }
    else none

/-- Run a list of events from a state; `none` if some event is not enabled. -/
def run (s : State) : List Event → Option State
  | [] => some s
  | e :: es =>
    match step s e with
    | none => none
    | some s1 => run s1 es

/-- Invariants of every reachable state of a lineage. -/
def Inv (s : State) : Prop :=
  (0 < s.handles → s.senderOpen = true)
  ∧ (s.senderOpen = false → s.workerAlive = false → s.queue = [])
  ∧ (s.joined = true → s.handles = 0 ∧ s.senderOpen = false ∧ s.workerAlive = false)
  ∧ s.enqueued = s.destW ++ s.queue ++ s.destClose
  ∧ (s.destClose ≠ [] → s.senderOpen = false ∧ s.workerAlive = false)
  ∧ (s.sent : Multiset Item)
      = (s.queue : Multiset Item) + s.destW + s.destSync + s.destClose
  ∧ s.spawned = 1

/-- The teardown phase of a lineage, as a number that only grows:
0 = Active (sender endpoint exists), 1 = Closing/Draining (sender dropped,
worker still consuming the backlog), 2 = worker terminated but not yet
joined, 3 = Terminated (worker joined). -/
def rank (s : State) : Nat :=
  if s.senderOpen then 0 else if s.workerAlive then 1 else if s.joined then 3 else 2

/-- A complete run: one value dropped out, handle released, worker drains,
terminates, join completes. -/
def esC1 : List Event :=
  [.dropout 0 5, .release, .workerRecv, .workerTerm, .joinDone]

/-- The final state of `esC1`. -/
def sC1 : State :=
  { handles := 0
    senderOpen := false
    workerAlive := false
    joined := true
    panicked := false
    spawned := 1
    queue := []
    destW := [(0, 5)]
    destSync := []
    destClose := []
    sent := [(0, 5)]
    enqueued := [(0, 5)] }

/-- A live handle whose worker thread has already terminated. -/
def sDeadWorker : State := { initState with workerAlive := false }

/-- Two values from one producer, drained after release. -/
def esC3 : List Event :=
  [.dropout 1 3, .dropout 1 4, .release, .workerRecv, .workerRecv,
   .workerTerm, .joinDone]

/-- The final state of `esC3`. -/
def sC3 : State :=
  { handles := 0
    senderOpen := false
    workerAlive := false
    joined := true
    panicked := false
    spawned := 1
    queue := []
    destW := [(1, 3), (1, 4)]
    destSync := []
    destClose := []
    sent := [(1, 3), (1, 4)]
    enqueued := [(1, 3), (1, 4)] }

/-- Two producers interleaved; producer 1 sends tags 10 then 11. -/
def esC5 : List Event :=
  [.dropout 1 10, .dropout 2 20, .dropout 1 11, .workerRecv, .release,
   .workerRecv, .workerRecv, .workerTerm, .joinDone]

/-- The final state of `esC5`. -/
def sC5 : State :=
  { handles := 0
    senderOpen := false
    workerAlive := false
    joined := true
    panicked := false
    spawned := 1
    queue := []
    destW := [(1, 10), (2, 20), (1, 11)]
    destSync := []
    destClose := []
    sent := [(1, 10), (2, 20), (1, 11)]
    enqueued := [(1, 10), (2, 20), (1, 11)] }

/-- Run reaching the moment right before the final join. -/
def esC8 : List Event :=
  [.dropout 0 1, .release, .workerRecv, .workerTerm]

/-- The final state of `esC8`: sender dropped, worker terminated, join
still pending. -/
def sC8 : State :=
  { handles := 0
    senderOpen := false
    workerAlive := false
    joined := false
    panicked := false
    spawned := 1
    queue := []
    destW := [(0, 1)]
    destSync := []
    destClose := []
    sent := [(0, 1)]
    enqueued := [(0, 1)] }

/-- `sC8` after the join completes. -/
def sC8joined : State := { sC8 with joined := true }

/-- A lineage whose worker died in a destructor panic, ready to be joined:
reached by dropping one value, letting its destructor panic, then releasing
the last handle. -/
def sC10 : State :=
  { handles := 0
    senderOpen := false
    workerAlive := false
    joined := false
    panicked := true
    spawned := 1
    queue := []
    destW := [(0, 1)]
    destSync := []
    destClose := []
    sent := [(0, 1)]
    enqueued := [(0, 1)] }

theorem inv_init : Inv initState := by
  simp [Inv, initState]

theorem inv_step {s s' : State} {e : Event} (hInv : Inv s)
    (hstep : step s e = some s') : Inv s' := by
  obtain ⟨h1, h2, h3, h4, h5, h6, h7⟩ := hInv
  cases e with
  | dropout pid v =>
    simp only [step] at hstep
    by_cases hh : s.handles = 0
    · rw [if_pos hh] at hstep
      exact Option.noConfusion hstep
    · rw [if_neg hh] at hstep
      have hopen : s.senderOpen = true := h1 (Nat.pos_of_ne_zero hh)
      rw [innerDropout, hopen, sendOnChannel] at hstep
      by_cases hw : s.workerAlive = true
      · rw [if_pos hw] at hstep
        have hx := Option.some.inj hstep
        subst hx
        have hdc : s.destClose = [] := by
          by_contra hne
          exact absurd hopen (by simp [(h5 hne).1])
        refine ⟨fun _ => hopen, by simp [hopen], ?_, ?_, ?_, ?_, h7⟩
        · intro hj
          exact absurd (h3 hj).2.1 (by simp [hopen])
        · simp [h4, hdc]
        · intro hne
          exact absurd hopen (by simp [(h5 hne).1])
        · simp only [← Multiset.coe_add, ← Multiset.cons_coe,
            ← Multiset.singleton_add, Multiset.coe_singleton,
            Multiset.coe_nil, add_zero, zero_add] at h6 ⊢
          rw [h6]
          abel
      · rw [if_neg hw] at hstep
        have hx := Option.some.inj hstep
        subst hx
        refine ⟨fun _ => hopen, by simp [hopen], ?_, h4, h5, ?_, h7⟩
        · intro hj
          exact absurd (h3 hj).2.1 (by simp [hopen])
        · simp only [← Multiset.coe_add, ← Multiset.cons_coe,
            ← Multiset.singleton_add, Multiset.coe_singleton,
            Multiset.coe_nil, add_zero, zero_add] at h6 ⊢
          rw [h6]
          abel
  | clone =>
    simp only [step] at hstep
    by_cases hh : s.handles = 0
    · rw [if_pos hh] at hstep
      exact Option.noConfusion hstep
    · rw [if_neg hh] at hstep
      have hopen : s.senderOpen = true := h1 (Nat.pos_of_ne_zero hh)
      have hx := Option.some.inj hstep
      subst hx
      refine ⟨fun _ => hopen, h2, ?_, h4, h5, h6, h7⟩
      intro hj
      exact absurd (h3 hj).1 hh
  | release =>
    simp only [step] at hstep
    split at hstep
    · exact Option.noConfusion hstep
    · next hh =>
      have hopen : s.senderOpen = true := h1 (by omega)
      by_cases hw : s.workerAlive = true
      · rw [if_pos hw] at hstep
        have hx := Option.some.inj hstep
        subst hx
        refine ⟨by simp, by simp [hw], ?_, h4, ?_, h6, h7⟩
        · intro hj
          exact absurd (h3 hj).1 (by omega)
        · intro hne
          exact absurd hw (by simp [(h5 hne).2])
      · rw [if_neg hw] at hstep
        have hx := Option.some.inj hstep
        subst hx
        have hdc : s.destClose = [] := by
          by_contra hne
          exact absurd hopen (by simp [(h5 hne).1])
        refine ⟨by simp, by simp, ?_, ?_, ?_, ?_, h7⟩
        · intro hj
          exact absurd (h3 hj).1 (by omega)
        · simp [h4, hdc]
        · intro _
          exact ⟨rfl, by simpa using hw⟩
        · simp only [hdc, ← Multiset.coe_add, ← Multiset.cons_coe,
            ← Multiset.singleton_add, Multiset.coe_singleton,
            Multiset.coe_nil, add_zero, zero_add] at h6 ⊢
          rw [h6]
          abel
    · next n hh =>
      have hopen : s.senderOpen = true := h1 (by omega)
      have hx := Option.some.inj hstep
      subst hx
      refine ⟨fun _ => hopen, h2, ?_, h4, h5, h6, h7⟩
      intro hj
      exact absurd (h3 hj).1 (by omega)
  | workerRecv =>
    simp only [step] at hstep
    by_cases hw : s.workerAlive = true
    · rw [if_pos hw] at hstep
      match hq : s.queue, hstep with
      | [], hstep => exact Option.noConfusion hstep
      | x :: rest, hstep =>
        have hx := Option.some.inj hstep
        subst hx
        refine ⟨h1, ?_, ?_, ?_, ?_, ?_, h7⟩
        · intro _ hw'
          have hw2 : s.workerAlive = false := hw'
          rw [hw] at hw2
          exact Bool.noConfusion hw2
        · intro hj
          exact absurd hw (by simp [(h3 hj).2.2])
        · simp [h4, hq]
        · intro hne
          exact ⟨(h5 hne).1, (h5 hne).2⟩
        · rw [hq] at h6
          simp only [← Multiset.coe_add, ← Multiset.cons_coe,
            ← Multiset.singleton_add, Multiset.coe_singleton,
            Multiset.coe_nil, add_zero, zero_add] at h6 ⊢
          rw [h6]
          abel
    · rw [if_neg hw] at hstep
      exact Option.noConfusion hstep
  | workerPanic =>
    simp only [step] at hstep
    by_cases hw : s.workerAlive = true
    · rw [if_pos hw] at hstep
      match hq : s.queue, hstep with
      | [], hstep => exact Option.noConfusion hstep
      | x :: rest, hstep =>
        dsimp only at hstep
        by_cases ho : s.senderOpen = true
        · rw [if_pos ho] at hstep
          have hx := Option.some.inj hstep
          subst hx
          refine ⟨fun _ => ho, by simp [ho], ?_, ?_, ?_, ?_, h7⟩
          · intro hj
            exact absurd (h3 hj).2.1 (by simp [ho])
          · simp [h4, hq]
          · intro hne
            exact absurd hw (by simp [(h5 hne).2])
          · rw [hq] at h6
            simp only [← Multiset.coe_add, ← Multiset.cons_coe,
              ← Multiset.singleton_add, Multiset.coe_singleton,
              Multiset.coe_nil, add_zero, zero_add] at h6 ⊢
            rw [h6]
            abel
        · rw [if_neg ho] at hstep
          have hx := Option.some.inj hstep
          subst hx
          have hdc : s.destClose = [] := by
            by_contra hne
            exact absurd hw (by simp [(h5 hne).2])
          refine ⟨?_, by simp, ?_, ?_, ?_, ?_, h7⟩
          · intro hpos
            exact absurd (h1 hpos) ho
          · intro hj
            exact absurd hw (by simp [(h3 hj).2.2])
          · simp [h4, hq, hdc]
          · intro _
            exact ⟨by simpa using ho, rfl⟩
          · rw [hq] at h6
            simp only [hdc, ← Multiset.coe_add, ← Multiset.cons_coe,
              ← Multiset.singleton_add, Multiset.coe_singleton,
              Multiset.coe_nil, add_zero, zero_add] at h6 ⊢
            rw [h6]
            abel
    · rw [if_neg hw] at hstep
      exact Option.noConfusion hstep
  | workerTerm =>
    simp only [step] at hstep
    split at hstep
    · next hcond =>
      have hx := Option.some.inj hstep
      subst hx
      refine ⟨?_, by simp [hcond.2.2], ?_, h4, ?_, h6, h7⟩
      · intro hpos
        exact absurd (h1 hpos) (by simp [hcond.2.1])
      · intro hj
        exact absurd hcond.1 (by simp [(h3 hj).2.2])
      · intro hne
        exact ⟨(h5 hne).1, rfl⟩
    · exact Option.noConfusion hstep
  | joinDone =>
    simp only [step] at hstep
    split at hstep
    · next hcond =>
      have hx := Option.some.inj hstep
      subst hx
      refine ⟨?_, h2, fun _ => ⟨hcond.1, hcond.2.1, hcond.2.2.1⟩, h4,
             fun hne => ⟨hcond.2.1, hcond.2.2.1⟩, h6, h7⟩
      intro hpos
      exact absurd hpos (by simp [hcond.1])
    · exact Option.noConfusion hstep

theorem inv_run_aux {s0 : State} (hInv : Inv s0) :
    ∀ (es : List Event) (s : State), run s0 es = some s → Inv s := by
  intro es
  induction es generalizing s0 with
  | nil =>
    intro s h
    simp [run] at h
    subst h
    exact hInv
  | cons e es ih =>
    intro s h
    simp only [run] at h
    match hs : step s0 e with
    | none => rw [hs] at h; exact absurd h (by simp)
    | some s1 =>
      rw [hs] at h
      exact ih (inv_step hInv hs) s h

theorem inv_run {es : List Event} {s : State}
    (h : run initState es = some s) : Inv s :=
  inv_run_aux inv_init es s h

theorem step_forward {s s' : State} {e : Event} (hstep : step s e = some s') :
    rank s ≤ rank s'
      ∧ (s.senderOpen = false → s'.senderOpen = false)
      ∧ (s.workerAlive = false → s'.workerAlive = false) := by
  cases e with
  | dropout pid v =>
    simp only [step] at hstep
    by_cases hh : s.handles = 0
    · rw [if_pos hh] at hstep
      exact Option.noConfusion hstep
    · rw [if_neg hh] at hstep
      rw [innerDropout] at hstep
      match hos : s.senderOpen, hstep with
      | false, hstep => exact Option.noConfusion hstep
      | true, hstep =>
        rw [sendOnChannel] at hstep
        by_cases hw : s.workerAlive = true
        · rw [if_pos hw] at hstep
          dsimp only at hstep
          have hx := Option.some.inj hstep
          subst hx
          exact ⟨Nat.le_refl _, fun hh2 => Bool.noConfusion hh2, fun hh2 => hh2⟩
        · rw [if_neg hw] at hstep
          dsimp only at hstep
          have hx := Option.some.inj hstep
          subst hx
          exact ⟨Nat.le_refl _, fun hh2 => Bool.noConfusion hh2, fun hh2 => hh2⟩
  | clone =>
    simp only [step] at hstep
    by_cases hh : s.handles = 0
    · rw [if_pos hh] at hstep
      exact Option.noConfusion hstep
    · rw [if_neg hh] at hstep
      have hx := Option.some.inj hstep
      subst hx
      exact ⟨Nat.le_refl _, fun hh2 => hh2, fun hh2 => hh2⟩
  | release =>
    simp only [step] at hstep
    split at hstep
    · exact Option.noConfusion hstep
    · by_cases hw : s.workerAlive = true
      · rw [if_pos hw] at hstep
        have hx := Option.some.inj hstep
        subst hx
        refine ⟨?_, fun _ => rfl, fun hh2 => hh2⟩
        cases ho : s.senderOpen <;> cases hw2 : s.workerAlive
          <;> cases hj2 : s.joined <;> simp [rank, ho, hw2, hj2]
      · rw [if_neg hw] at hstep
        have hx := Option.some.inj hstep
        subst hx
        refine ⟨?_, fun _ => rfl, fun hh2 => hh2⟩
        cases ho : s.senderOpen <;> cases hw2 : s.workerAlive
          <;> cases hj2 : s.joined <;> simp [rank, ho, hw2, hj2]
    · have hx := Option.some.inj hstep
      subst hx
      exact ⟨Nat.le_refl _, fun hh2 => hh2, fun hh2 => hh2⟩
  | workerRecv =>
    simp only [step] at hstep
    by_cases hw : s.workerAlive = true
    · rw [if_pos hw] at hstep
      match hq : s.queue, hstep with
      | [], hstep => exact Option.noConfusion hstep
      | x :: rest, hstep =>
        have hx := Option.some.inj hstep
        subst hx
        exact ⟨Nat.le_refl _, fun hh2 => hh2, fun hh2 => hh2⟩
    · rw [if_neg hw] at hstep
      exact Option.noConfusion hstep
  | workerPanic =>
    simp only [step] at hstep
    by_cases hw : s.workerAlive = true
    · rw [if_pos hw] at hstep
      match hq : s.queue, hstep with
      | [], hstep => exact Option.noConfusion hstep
      | x :: rest, hstep =>
        dsimp only at hstep
        by_cases ho : s.senderOpen = true
        · rw [if_pos ho] at hstep
          have hx := Option.some.inj hstep
          subst hx
          refine ⟨?_, fun hh2 => hh2, fun _ => rfl⟩
          simp [rank, ho]
        · rw [if_neg ho] at hstep
          have hx := Option.some.inj hstep
          subst hx
          have ho2 : s.senderOpen = false := by simpa using ho
          refine ⟨?_, fun hh2 => hh2, fun _ => rfl⟩
          cases hj2 : s.joined <;> simp [rank, ho2, hw, hj2]
    · rw [if_neg hw] at hstep
      exact Option.noConfusion hstep
  | workerTerm =>
    simp only [step] at hstep
    split at hstep
    · next hcond =>
      have hx := Option.some.inj hstep
      subst hx
      refine ⟨?_, fun hh2 => hh2, fun _ => rfl⟩
      cases hj2 : s.joined <;> simp [rank, hcond.1, hcond.2.1, hj2]
    · exact Option.noConfusion hstep
  | joinDone =>
    simp only [step] at hstep
    split at hstep
    · next hcond =>
      have hx := Option.some.inj hstep
      subst hx
      refine ⟨?_, fun hh2 => hh2, fun hh2 => hh2⟩
      simp [rank, hcond.2.1, hcond.2.2.1, hcond.2.2.2]
    · exact Option.noConfusion hstep

/-- C1: along any run of a lineage — any interleaving of dropout calls,
clones, releases, worker receives, destructor panics — once the last owner
has finished being released (the join has completed), the multiset of
values passed to `dropout` equals the multiset of destroyed values (worker
plus synchronous fallback plus channel-teardown), so every value is
destroyed exactly once and none is leaked or destroyed twice. -/
theorem dropout_exactly_once (es : List Event) (s : State)
    (h : run initState es = some s) (hj : s.joined = true) :
    (s.sent : Multiset Item)
      = (s.destW : Multiset Item) + s.destSync + s.destClose := by
  obtain ⟨h1, h2, h3, h4, h5, h6, h7⟩ := inv_run h
  have hq : s.queue = [] := h2 (h3 hj).2.1 (h3 hj).2.2
  rw [h6, hq]
  simp

/-- Witness for C1 on the concrete run `esC1`. -/
theorem dropout_exactly_once_witness :
    (sC1.sent : Multiset Item)
      = (sC1.destW : Multiset Item) + sC1.destSync + sC1.destClose :=
  dropout_exactly_once esC1 sC1 (by decide) (by decide)

/-- C2: a `dropout` call made through a live handle while the receiving
side is closed (worker terminated) fails the send and destroys the value
synchronously in the calling thread (appended to `destSync`, queue
untouched); the call still returns (`isSome`), exactly like the success
path, so the caller sees no error on either path. -/
theorem dropout_fallback_sync (s : State) (x : Item)
    (hopen : s.senderOpen = true) (hdead : s.workerAlive = false) :
    innerDropout s x
        = some { s with sent := s.sent ++ [x], destSync := s.destSync ++ [x] }
      ∧ (innerDropout s x).isSome = true := by
  rw [innerDropout, hopen, sendOnChannel, hdead]
  simp [hopen, hdead]

/-- Witness for C2 at a live handle with a dead worker. -/
theorem dropout_fallback_sync_witness :
    innerDropout sDeadWorker (0, 9)
        = some { sDeadWorker with
            sent := sDeadWorker.sent ++ [(0, 9)]
            destSync := sDeadWorker.destSync ++ [(0, 9)] }
      ∧ (innerDropout sDeadWorker (0, 9)).isSome = true :=
  dropout_fallback_sync sDeadWorker (0, 9) rfl rfl

/-- C3: in any run, once the final join of the last-owner release has
completed, the sender is closed, the worker has terminated, the queue is
empty, and every value that was ever enqueued has been destroyed — so the
release could not have returned before the backlog was fully drained. -/
theorem teardown_blocks_until_drained (es : List Event) (s : State)
    (h : run initState es = some s) (hj : s.joined = true) :
    s.senderOpen = false ∧ s.workerAlive = false ∧ s.queue = []
      ∧ s.enqueued = s.destW ++ s.destClose := by
  obtain ⟨h1, h2, h3, h4, h5, h6, h7⟩ := inv_run h
  have hs := (h3 hj).2.1
  have hw := (h3 hj).2.2
  have hq : s.queue = [] := h2 hs hw
  refine ⟨hs, hw, hq, ?_⟩
  rw [h4, hq]
  simp

/-- Witness for C3 on the concrete run `esC3` (two enqueued values, both
destroyed before the join completes). -/
theorem teardown_blocks_until_drained_witness :
    sC3.senderOpen = false ∧ sC3.workerAlive = false ∧ sC3.queue = []
      ∧ sC3.enqueued = sC3.destW ++ sC3.destClose :=
  teardown_blocks_until_drained esC3 sC3 (by decide) (by decide)

/-- C4: every reachable state of a lineage has spawned exactly one worker
thread (spawning happens only in `new`), and `clone` on any live handle
only increments the reference count: the queue, the sender, the worker and
every log are shared unchanged, and no new worker or channel is created. -/
theorem one_worker_per_lineage (es : List Event) (s : State)
    (h : run initState es = some s) :
    s.spawned = 1
      ∧ ∀ t : State, 0 < t.handles →
          step t .clone = some { t with handles := t.handles + 1 } := by
  refine ⟨(inv_run h).2.2.2.2.2.2, ?_⟩
  intro t ht
  simp only [step]
  rw [if_neg (by omega)]

/-- Witness for C4 at the freshly constructed state. -/
theorem one_worker_per_lineage_witness :
    initState.spawned = 1
      ∧ step initState .clone
          = some { initState with handles := initState.handles + 1 } :=
  ⟨(one_worker_per_lineage [] initState rfl).1,
   (one_worker_per_lineage [] initState rfl).2 initState (by decide)⟩

/-- C5: in any run, the values a fixed producer `p` enqueued are destroyed
by the worker in exactly their send order: the worker's destruction log
restricted to `p` is always a prefix of `p`'s enqueue log, and when the
lineage has terminated normally (joined, nothing flushed at channel
teardown) the two are equal.  Nothing relates values of different
producers. -/
theorem fifo_per_producer (es : List Event) (s : State)
    (h : run initState es = some s) (p : Nat) :
    (s.destW.filter (fun x => x.1 == p)) <+: (s.enqueued.filter (fun x => x.1 == p))
      ∧ (s.joined = true → s.destClose = [] →
          s.destW.filter (fun x => x.1 == p)
            = s.enqueued.filter (fun x => x.1 == p)) := by
  obtain ⟨h1, h2, h3, h4, h5, h6, h7⟩ := inv_run h
  constructor
  · rw [h4]
    simp only [List.filter_append, List.append_assoc]
    exact ⟨_, rfl⟩
  · intro hj hdc
    have hq : s.queue = [] := h2 (h3 hj).2.1 (h3 hj).2.2
    rw [h4, hq, hdc]
    simp

/-- Witness for C5 on the interleaved two-producer run `esC5`, producer 1. -/
theorem fifo_per_producer_witness :
    (sC5.destW.filter (fun x => x.1 == 1)) <+: (sC5.enqueued.filter (fun x => x.1 == 1))
      ∧ sC5.destW.filter (fun x => x.1 == 1)
          = sC5.enqueued.filter (fun x => x.1 == 1) :=
  ⟨(fifo_per_producer esC5 sC5 (by decide) 1).1,
   (fifo_per_producer esC5 sC5 (by decide) 1).2 (by decide) (by decide)⟩

/-- C6: if spawning the worker thread fails, `new` aborts construction and
returns no handle at all (the `expect` panics); on success it returns
exactly the fresh, fully functional state — there is no degraded handle. -/
theorem construction_aborts_on_spawn_failure :
    new false = none ∧ new true = some initState :=
  ⟨rfl, rfl⟩

/-- C7: the worker's receive loop terminates exactly when the channel is
permanently closed: the terminating step is enabled iff the worker is
running, the sender endpoint is gone and the buffer is empty; and while
items remain buffered a running worker's receive step is enabled. -/
theorem worker_loop_termination (s : State) :
    ((step s .workerTerm).isSome = true
        ↔ (s.workerAlive = true ∧ s.senderOpen = false ∧ s.queue = []))
      ∧ ((step s .workerRecv).isSome = true
        ↔ (s.workerAlive = true ∧ s.queue ≠ [])) := by
  constructor
  · simp only [step]
    split
    · next hc => simp [hc]
    · next hc => simp [hc]
  · simp only [step]
    by_cases hw : s.workerAlive = true
    · rw [if_pos hw]
      match hq : s.queue with
      | [] => simp [hw]
      | x :: rest => simp [hw]
    · rw [if_neg hw]
      simp [hw]

/-- C8: lineage phases only move forward.  Along any step from a reachable
state the phase rank (Active = 0, Closing/Draining = 1, worker terminated =
2, Terminated/joined = 3) never decreases, a dropped sender is never
reopened, a terminated worker is never restarted, and a joined state has
its sender dropped (the sender drop strictly precedes the join). -/
theorem lineage_forward_only (es : List Event) (s : State) (e : Event)
    (s' : State) (h : run initState es = some s) (hstep : step s e = some s') :
    rank s ≤ rank s'
      ∧ (s.senderOpen = false → s'.senderOpen = false)
      ∧ (s.workerAlive = false → s'.workerAlive = false)
      ∧ (s'.joined = true → s'.senderOpen = false ∧ s'.workerAlive = false) := by
  obtain ⟨hm, hs, hw⟩ := step_forward hstep
  have hInv := inv_step (inv_run h) hstep
  exact ⟨hm, hs, hw, fun hj => ⟨(hInv.2.2.1 hj).2.1, (hInv.2.2.1 hj).2.2⟩⟩

/-- Witness for C8 on the final join step of the run `esC8`. -/
theorem lineage_forward_only_witness :
    rank sC8 ≤ rank sC8joined
      ∧ sC8joined.senderOpen = false ∧ sC8joined.workerAlive = false :=
  ⟨(lineage_forward_only esC8 sC8 .joinDone sC8joined (by decide) (by decide)).1,
   ((lineage_forward_only esC8 sC8 .joinDone sC8joined (by decide)
      (by decide)).2.2.2 rfl).1,
   ((lineage_forward_only esC8 sC8 .joinDone sC8joined (by decide)
      (by decide)).2.2.2 rfl).2⟩

/-- C9: in every reachable state with at least one live handle the
`drop_sender` option is still `Some`, so the `unwrap` inside `dropout`
cannot panic: `innerDropout` returns a result for every value. -/
theorem drop_sender_some_while_live (es : List Event) (s : State)
    (h : run initState es = some s) (hl : 0 < s.handles) :
    s.senderOpen = true ∧ ∀ pid v : Nat, (innerDropout s (pid, v)).isSome = true := by
  have hopen := (inv_run h).1 hl
  refine ⟨hopen, ?_⟩
  intro pid v
  rw [innerDropout, hopen, sendOnChannel]
  by_cases hw : s.workerAlive = true
  · rw [if_pos hw]
    simp
  · rw [if_neg hw]
    simp

/-- Witness for C9 at the freshly constructed state. -/
theorem drop_sender_some_while_live_witness :
    initState.senderOpen = true
      ∧ (innerDropout initState (0, 3)).isSome = true :=
  ⟨(drop_sender_some_while_live [] initState rfl (by decide)).1,
   (drop_sender_some_while_live [] initState rfl (by decide)).2 0 3⟩

/-- C10: the release of the last owner discards the join result
(`self.thread_handle.take().map(|h| h.join())`): whenever the worker has
terminated — the `panicked` flag plays no role in the statement, so a
panicked worker is covered — the join step completes normally, returning
the state with `joined := true` and propagating no error or panic. -/
theorem join_result_discarded (s : State)
    (hh : s.handles = 0) (ho : s.senderOpen = false)
    (hw : s.workerAlive = false) (hj : s.joined = false) :
    step s .joinDone = some { s with joined := true } := by
  simp only [step]
  rw [if_pos ⟨hh, ho, hw, hj⟩]

/-- Witness for C10 at a lineage whose worker died by a destructor panic
(`sC10.panicked = true`): the release still completes normally. -/
theorem join_result_discarded_witness :
    step sC10 .joinDone = some { sC10 with joined := true } :=
  join_result_discarded sC10 rfl rfl rfl rfl
